import Mathlib

/-!
Verification of the bikeshare booking engine.

Shallow embedding of the booking data model, the repository operations
(`Repository.Create`, `Repository.Cancel`, `Repository.GetNextBookingByOtherUser`)
and the API handlers (`API.createBookingHandler`, `API.upcomingBookingCheckHandler`)
from the Go source. Instants are modelled as `Int` (seconds); `time.Hour`
becomes the constant `hour = 3600`. Database tables become lists; the SQL
queries are translated clause by clause into filter predicates, including the
fact that `getNextBookingByOtherUserQuery` joins the bikes table only on the
label and never restricts the scanned bookings to that bike.
-/

namespace Bikeshare

/-- A row of the bikes table: `id` and `label` (the columns the queries use). -/
structure Bike where
  id : Nat
  label : String
  deriving DecidableEq, Repr

/-- A row of the bookings table, with the columns used by the booking queries.
`cancelledAt` is `NULL`-able (`sql.NullTime`), modelled as `Option Int`. -/
structure Booking where
  id : Nat
  bikeId : Nat
  userId : String
  startTime : Int
  endTime : Int
  cancelledAt : Option Int
  totalCost : Option Int
  createdAt : Int
  deriving DecidableEq, Repr

/-- The four derived booking statuses. -/
inductive BookingStatus
  | confirmed
  | active
  | completed
  | cancelled
  deriving DecidableEq, Repr

/-- `Booking.StatusAt` from the source: cancelled if `CancelledAt.Valid`;
completed if `EndTime.Before(now)`; active if
`!StartTime.After(now) && !EndTime.Before(now)`; confirmed otherwise. -/
def Booking.StatusAt (b : Booking) (now : Int) : BookingStatus :=
  if b.cancelledAt.isSome then BookingStatus.cancelled
  else if b.endTime < now then BookingStatus.completed
  else if ¬ now < b.startTime ∧ ¬ b.endTime < now then BookingStatus.active
  else BookingStatus.confirmed

/-- Modelled from the spec: the status derivation written exactly as the spec
words it — Cancelled if `cancelledAt` is set; else Completed if `endTime` is
strictly before `now`; else Active if `startTime <= now <= endTime`; else
Confirmed. Used to compare the source `Booking.StatusAt` with the spec. -/
def deriveStatusSpec (b : Booking) (now : Int) : BookingStatus :=
  if b.cancelledAt.isSome then BookingStatus.cancelled
  else if b.endTime < now then BookingStatus.completed
  else if b.startTime ≤ now ∧ now ≤ b.endTime then BookingStatus.active
  else BookingStatus.confirmed

/-- The bookings table, in insertion order. -/
abbrev Store := List Booking

/-- The row predicate of `checkOverlapQuery`:
`bike_id = $1 AND cancelled_at IS NULL AND start_time < $3 AND end_time > $2`
with `$2 = candidate start` and `$3 = candidate end`. -/
def overlapRow (bikeId : Nat) (s e : Int) (b : Booking) : Bool :=
  b.bikeId == bikeId && b.cancelledAt.isNone && decide (b.startTime < e) && decide (b.endTime > s)

/-- `checkOverlapQuery`: the ids of rows matching `overlapRow`. -/
def checkOverlapQuery (db : Store) (bikeId : Nat) (s e : Int) : List Nat :=
  (db.filter (overlapRow bikeId s e)).map (fun b => b.id)

/-- The only typed failure of `Repository.Create`: `ErrOverlap`. -/
inductive CreateError
  | overlap
  deriving DecidableEq, Repr

/-- `Repository.Create`: run `checkOverlapQuery`; if any row matches, roll back
and return `ErrOverlap`; otherwise insert the row (the INSERT sets
`created_at = now()` and leaves `cancelled_at` NULL) and commit. -/
def Repository.Create (db : Store) (now : Int) (b : Booking) : Store × Option CreateError :=
  if checkOverlapQuery db b.bikeId b.startTime b.endTime ≠ [] then
    (db, some CreateError.overlap)
  else
    (db ++ [{ b with cancelledAt := none, createdAt := now }], none)

/-- The typed failures of `Repository.Cancel`. -/
inductive CancelError
  | notFound
  | notAuthorized
  | cannotCancel
  deriving DecidableEq, Repr

/-- The effect of `cancelBookingQuery` on one row:
`UPDATE bookings SET cancelled_at = now() WHERE id = $1`. -/
def cancelMark (bookingId : Nat) (now : Int) (x : Booking) : Booking :=
  if x.id == bookingId then { x with cancelledAt := some now } else x

/-- `Repository.Cancel`: fetch the row by id (`NotFound` if absent), check
ownership (`NotAuthorized`), check `CancelledAt.Valid` (`CannotCancel`),
check `!StartTime.After(now)` (`CannotCancel`), then
`UPDATE ... SET cancelled_at = now() WHERE id = $1 RETURNING *`. -/
def Repository.Cancel (db : Store) (bookingId : Nat) (userId : String) (now : Int) :
    Store × Except CancelError Booking :=
  match db.find? (fun b => b.id == bookingId) with
  | none => (db, Except.error CancelError.notFound)
  | some b =>
    if b.userId ≠ userId then (db, Except.error CancelError.notAuthorized)
    else if b.cancelledAt.isSome then (db, Except.error CancelError.cannotCancel)
    else if ¬ now < b.startTime then (db, Except.error CancelError.cannotCancel)
    else
      (db.map (cancelMark bookingId now), Except.ok { b with cancelledAt := some now })

/-- The row predicate of `getNextBookingByOtherUserQuery`:
`user_id != $2 AND cancelled_at IS NULL AND start_time > $3`.
Note the query has no condition on `bike_id`. -/
def nextRow (userId : String) (after : Int) (b : Booking) : Bool :=
  b.userId != userId && b.cancelledAt.isNone && decide (after < b.startTime)

/-- `ORDER BY start_time ASC LIMIT 1`: a row of minimal `start_time`
among the matching rows, `none` when there is none. -/
def minByStart : List Booking → Option Booking
  | [] => none
  | b :: rest =>
    match minByStart rest with
    | none => some b
    | some m => if m.startTime < b.startTime then some m else some b

/-- `Repository.GetNextBookingByOtherUser`: the query joins
`bikes ON bikes.label = $1` (so it yields rows only when a bike with that
label exists) but filters the bookings only by `nextRow` — it never
restricts them to the bike with that label. -/
def Repository.GetNextBookingByOtherUser (bikes : List Bike) (db : Store)
    (bikeLabel : String) (userId : String) (after : Int) : Option Booking :=
  if bikes.any (fun bk => bk.label == bikeLabel) then
    minByStart (db.filter (nextRow userId after))
  else none

/-- `time.Hour`, in seconds. -/
def hour : Int := 3600

/-- The body of `createBookingRequest` after time parsing: `bikeId` is the
string the handler passes to `GetBike`, which looks bikes up by label. -/
structure CreateRequest where
  bikeId : String
  startTime : Int
  endTime : Int
  deriving DecidableEq, Repr

/-- The outcomes of `createBookingHandler` relevant to the conflict engine. -/
inductive CreateOutcome
  | invalidDuration
  | bikeNotFound
  | bufferConflict
  | overlapConflict
  | created
  deriving DecidableEq, Repr

/-- `nextBooking != nil && nextBooking.StartTime.Before(endTime.Add(time.Hour))`. -/
def bufferViolated (next : Option Booking) (endTime : Int) : Bool :=
  match next with
  | some nb => decide (nb.startTime < endTime + hour)
  | none => false

/-- `API.createBookingHandler` after authentication and time parsing.
`auth0Id` is the identifier the JWT middleware yields; `customerId` is the
customer id `GetCustomerByAuth0ID` resolves it to. The handler validates the
duration, looks the bike up by label, runs the buffer check with
`GetNextBookingByOtherUser(bikeID, userID, endTime)` — passing `auth0Id`,
while the inserted row stores `customerId` — and only then calls
`Repository.Create`. -/
def API.createBookingHandler (bikes : List Bike) (db : Store) (auth0Id : String)
    (customerId : String) (now : Int) (newId : Nat) (req : CreateRequest) :
    Store × CreateOutcome :=
  if req.endTime - req.startTime < hour then (db, CreateOutcome.invalidDuration)
  else if req.endTime - req.startTime > 24 * hour then (db, CreateOutcome.invalidDuration)
  else
    match bikes.find? (fun bk => bk.label == req.bikeId) with
    | none => (db, CreateOutcome.bikeNotFound)
    | some bk =>
      if bufferViolated
          (Repository.GetNextBookingByOtherUser bikes db req.bikeId auth0Id req.endTime)
          req.endTime then
        (db, CreateOutcome.bufferConflict)
      else
        let b : Booking :=
          { id := newId, bikeId := bk.id, userId := customerId,
            startTime := req.startTime, endTime := req.endTime,
            cancelledAt := none, totalCost := none, createdAt := now }
        match Repository.Create db now b with
        | (db2, none) => (db2, CreateOutcome.created)
        | (_, some _) => (db, CreateOutcome.overlapConflict)

/-- The JSON body of the handover pre-flight response. -/
structure UpcomingBookingCheckResponse where
  hasUpcomingBooking : Bool
  nextBookingStart : Option Int
  minutesUntilNextBooking : Option Int
  deriving DecidableEq, Repr

/-- Outcome of `upcomingBookingCheckHandler` after authentication. -/
inductive UpcomingOutcome
  | bikeNotFound
  | ok (resp : UpcomingBookingCheckResponse)
  deriving DecidableEq, Repr

/-- `API.upcomingBookingCheckHandler`: verify the bike exists, fetch the next
booking via `GetNextBookingByOtherUser(label, userID, now)` and report a
block when it starts within one hour of `now`. -/
def API.upcomingBookingCheckHandler (bikes : List Bike) (db : Store)
    (auth0Id : String) (label : String) (now : Int) : UpcomingOutcome :=
  match bikes.find? (fun bk => bk.label == label) with
  | none => UpcomingOutcome.bikeNotFound
  | some _ =>
    match Repository.GetNextBookingByOtherUser bikes db label auth0Id now with
    | some nb =>
      if nb.startTime < now + hour then
        UpcomingOutcome.ok
          { hasUpcomingBooking := true,
            nextBookingStart := some nb.startTime,
            minutesUntilNextBooking := some ((nb.startTime - now) / 60) }
      else
        UpcomingOutcome.ok
          { hasUpcomingBooking := false, nextBookingStart := none,
            minutesUntilNextBooking := none }
    | none =>
      UpcomingOutcome.ok
        { hasUpcomingBooking := false, nextBookingStart := none,
          minutesUntilNextBooking := none }

/-- A store mutation: one repository `Create` or `Cancel` call. -/
inductive Op
  | create (now : Int) (b : Booking)
  | cancel (bookingId : Nat) (userId : String) (now : Int)

/-- Apply one operation to the store; a failed operation rolls back and
leaves the store unchanged, so folding `applyOp` over any operation list
also covers every sequence of successful operations. -/
def applyOp (db : Store) : Op → Store
  | Op.create now b => (Repository.Create db now b).1
  | Op.cancel bookingId userId now => (Repository.Cancel db bookingId userId now).1

/-- Two bookings do not collide: if they are on the same bike and both are
non-cancelled, their `[startTime, endTime)` intervals do not overlap. -/
def nonOverlapping (a b : Booking) : Prop :=
  a.bikeId = b.bikeId → a.cancelledAt = none → b.cancelledAt = none →
    ¬ (a.startTime < b.endTime ∧ a.endTime > b.startTime)

/-- The store invariant: all pairs of rows are `nonOverlapping`. -/
def overlapFree (db : Store) : Prop :=
  db.Pairwise nonOverlapping

/-! ## Concrete fixtures used by witnesses, counterexamples and bug evaluations -/

/-- A bike with id 1 and label "b1". -/
def bikeA : Bike := { id := 1, label := "b1" }

/-- A second bike with id 2 and label "b2". -/
def bikeB : Bike := { id := 2, label := "b2" }

/-- A non-cancelled booking on bike 1 by customer "c2" over [3600, 8000). -/
def bk1 : Booking :=
  { id := 10, bikeId := 1, userId := "c2", startTime := 3600, endTime := 8000,
    cancelledAt := none, totalCost := none, createdAt := 0 }

/-- A create candidate on bike 1 by customer "c1" over [0, 7200). -/
def candW : Booking :=
  { id := 99, bikeId := 1, userId := "c1", startTime := 0, endTime := 7200,
    cancelledAt := none, totalCost := none, createdAt := 0 }

/-- A parsed create request for bike label "b1" over [0, 7200) (2 hours). -/
def reqB1 : CreateRequest :=
  { bikeId := "b1", startTime := 0, endTime := 7200 }

/-- A non-cancelled booking on bike 2 by customer "c2" starting 30 minutes
after `reqB1` ends. -/
def bkOnB2 : Booking :=
  { id := 20, bikeId := 2, userId := "c2", startTime := 9000, endTime := 12600,
    cancelledAt := none, totalCost := none, createdAt := 0 }

/-- A non-cancelled booking on bike 1 owned by customer "c1" starting 30
minutes after `reqB1` ends. -/
def bkOwn : Booking :=
  { id := 21, bikeId := 1, userId := "c1", startTime := 9000, endTime := 12600,
    cancelledAt := none, totalCost := none, createdAt := 0 }

/-- A non-cancelled booking on bike 1 by customer "c2" starting 30 minutes
after `reqB1` ends. -/
def bkBufferC9 : Booking :=
  { id := 31, bikeId := 1, userId := "c2", startTime := 9000, endTime := 12600,
    cancelledAt := none, totalCost := none, createdAt := 0 }

/-- A future cancellable booking by customer "c1" on bike 1. -/
def bkFuture : Booking :=
  { id := 7, bikeId := 1, userId := "c1", startTime := 100, endTime := 200,
    cancelledAt := none, totalCost := none, createdAt := 0 }

/-! ## Theorems -/

/-- C2: `StatusAt` is total (it is a Lean function into the four-constructor
status type, so it returns exactly one status for every record and every
instant) and agrees with the spec's derivation order: Cancelled if
`cancelledAt` is set, regardless of the times; otherwise Completed if
`endTime < now`; otherwise Active if `startTime <= now <= endTime`
(inclusive on both ends); otherwise Confirmed. -/
theorem statusAt_eq_deriveStatusSpec (b : Booking) (now : Int) :
    b.StatusAt now = deriveStatusSpec b now := by
  unfold Booking.StatusAt deriveStatusSpec
  split_ifs with h1 h2 h3 h4 <;> try rfl
  · exact absurd ⟨by omega, by omega⟩ h4
  · exact absurd ⟨by omega, h2⟩ h3

theorem overlapRow_eq_true_iff (bikeId : Nat) (s e : Int) (b : Booking) :
    overlapRow bikeId s e b = true ↔
      b.bikeId = bikeId ∧ b.cancelledAt = none ∧ b.startTime < e ∧ b.endTime > s := by
  simp [overlapRow, Bool.and_eq_true, Option.isNone_iff_eq_none, and_assoc]

theorem checkOverlapQuery_eq_nil_iff (db : Store) (bikeId : Nat) (s e : Int) :
    checkOverlapQuery db bikeId s e = [] ↔
      ∀ b ∈ db,
        ¬ (b.bikeId = bikeId ∧ b.cancelledAt = none ∧ b.startTime < e ∧ b.endTime > s) := by
  unfold checkOverlapQuery
  rw [List.map_eq_nil_iff, List.filter_eq_nil_iff]
  constructor
  · intro h b hb hp
    exact h b hb ((overlapRow_eq_true_iff bikeId s e b).mpr hp)
  · intro h b hb hrow
    exact h b hb ((overlapRow_eq_true_iff bikeId s e b).mp hrow)

/-- C3: the Store's create fails with `OverlapConflict` iff some existing
non-cancelled reservation for the same asset satisfies
`existing.startTime < candidate.endTime` and
`existing.endTime > candidate.startTime` (strict on both sides, so a
touching candidate is not rejected for overlap), and on that failure no
reservation is inserted. -/
theorem create_overlap_iff (db : Store) (now : Int) (b : Booking) :
    ((Repository.Create db now b).2 = some CreateError.overlap ↔
      ∃ ex ∈ db, ex.bikeId = b.bikeId ∧ ex.cancelledAt = none ∧
        ex.startTime < b.endTime ∧ ex.endTime > b.startTime) ∧
    ((Repository.Create db now b).2 = some CreateError.overlap →
      (Repository.Create db now b).1 = db) := by
  unfold Repository.Create
  split_ifs with h
  · refine ⟨?_, fun _ => rfl⟩
    rw [Ne, checkOverlapQuery_eq_nil_iff] at h
    push_neg at h
    exact ⟨fun _ => h, fun _ => rfl⟩
  · rw [not_not, checkOverlapQuery_eq_nil_iff] at h
    constructor
    · constructor
      · intro hc
        simp at hc
      · intro hex
        exfalso
        obtain ⟨ex, hmem, hp⟩ := hex
        exact h ex hmem hp
    · intro hc
      simp at hc

/-- Witness for C3 at a concrete overlapping input: the create fails and the
store is unchanged. -/
theorem create_overlap_iff_witness :
    (Repository.Create [bk1] 0 candW).1 = [bk1] :=
  (create_overlap_iff [bk1] 0 candW).2 (by decide)

theorem cancelMark_bikeId (bookingId : Nat) (now : Int) (x : Booking) :
    (cancelMark bookingId now x).bikeId = x.bikeId := by
  unfold cancelMark
  split <;> rfl

theorem cancelMark_startTime (bookingId : Nat) (now : Int) (x : Booking) :
    (cancelMark bookingId now x).startTime = x.startTime := by
  unfold cancelMark
  split <;> rfl

theorem cancelMark_endTime (bookingId : Nat) (now : Int) (x : Booking) :
    (cancelMark bookingId now x).endTime = x.endTime := by
  unfold cancelMark
  split <;> rfl

theorem cancelMark_cancelledAt_none (bookingId : Nat) (now : Int) (x : Booking)
    (h : (cancelMark bookingId now x).cancelledAt = none) : x.cancelledAt = none := by
  unfold cancelMark at h
  split at h
  · simp at h
  · exact h

theorem nonOverlapping_cancelMark (bookingId : Nat) (now : Int) (a c : Booking)
    (hac : nonOverlapping a c) :
    nonOverlapping (cancelMark bookingId now a) (cancelMark bookingId now c) := by
  intro hbike hca hcc hov
  rw [cancelMark_bikeId, cancelMark_bikeId] at hbike
  simp only [cancelMark_startTime, cancelMark_endTime] at hov
  exact hac hbike (cancelMark_cancelledAt_none bookingId now a hca)
    (cancelMark_cancelledAt_none bookingId now c hcc) hov

theorem applyOp_preserves_overlapFree (db : Store) (op : Op) (h : overlapFree db) :
    overlapFree (applyOp db op) := by
  cases op with
  | create now b =>
    show overlapFree (Repository.Create db now b).1
    unfold Repository.Create
    split_ifs with hc
    · exact h
    · rw [not_not, checkOverlapQuery_eq_nil_iff] at hc
      unfold overlapFree at h ⊢
      rw [List.pairwise_append]
      refine ⟨h, by simp [nonOverlapping], ?_⟩
      intro a ha c hc2
      simp only [List.mem_singleton] at hc2
      subst hc2
      intro hbike hca hcb hov
      exact hc a ha ⟨hbike, hca, hov.1, hov.2⟩
  | cancel bookingId userId now =>
    show overlapFree (Repository.Cancel db bookingId userId now).1
    unfold Repository.Cancel
    cases hf : db.find? (fun x => x.id == bookingId) with
    | none => exact h
    | some b =>
      dsimp only
      split_ifs with h1 h2 h3
      · exact h
      · exact h
      · exact List.Pairwise.map (cancelMark bookingId now)
          (nonOverlapping_cancelMark bookingId now) h
      · exact h

/-- C1: starting from the empty store, after every finite sequence of create
and cancel operations (failed ones roll back and change nothing, so this
covers every sequence of successful ones), the non-cancelled reservations of
each asset are pairwise non-overlapping in `[startTime, endTime)`. -/
theorem overlapFree_after_ops (ops : List Op) :
    overlapFree (List.foldl applyOp [] ops) := by
  have main : ∀ (l : List Op) (db : Store), overlapFree db →
      overlapFree (List.foldl applyOp db l) := by
    intro l
    induction l with
    | nil => intro db hdb; exact hdb
    | cons op rest ih =>
      intro db hdb
      exact ih (applyOp db op) (applyOp_preserves_overlapFree db op hdb)
  exact main ops [] List.Pairwise.nil

/-- C8: `Repository.Cancel` fails with NotFound when no row has the id;
otherwise it fails with NotAuthorized when the owner differs from the
requesting user (checked before any cancellability test); otherwise it fails
with CannotCancel when `cancelledAt` is already set or `startTime <= now`;
otherwise it sets `cancelledAt := now` on the row (`cancelMark` changes no
other field), returns the updated record, and every failure leaves the
store unchanged. -/
theorem cancel_spec (db : Store) (bookingId : Nat) (uid : String) (now : Int) :
    (db.find? (fun b => b.id == bookingId) = none →
      Repository.Cancel db bookingId uid now = (db, Except.error CancelError.notFound)) ∧
    (∀ b, db.find? (fun b => b.id == bookingId) = some b →
      (b.userId ≠ uid →
        Repository.Cancel db bookingId uid now = (db, Except.error CancelError.notAuthorized)) ∧
      (b.userId = uid → b.cancelledAt ≠ none →
        Repository.Cancel db bookingId uid now = (db, Except.error CancelError.cannotCancel)) ∧
      (b.userId = uid → b.cancelledAt = none → b.startTime ≤ now →
        Repository.Cancel db bookingId uid now = (db, Except.error CancelError.cannotCancel)) ∧
      (b.userId = uid → b.cancelledAt = none → now < b.startTime →
        Repository.Cancel db bookingId uid now =
          (db.map (cancelMark bookingId now),
           Except.ok { b with cancelledAt := some now }))) := by
  constructor
  · intro hf
    unfold Repository.Cancel
    rw [hf]
  · intro b hf
    unfold Repository.Cancel
    rw [hf]
    dsimp only
    refine ⟨?_, ?_, ?_, ?_⟩
    · intro h1
      rw [if_pos h1]
    · intro h1 h2
      rw [if_neg (not_not.mpr h1), if_pos (Option.ne_none_iff_isSome.mp h2)]
    · intro h1 h2 h3
      rw [if_neg (not_not.mpr h1), if_neg (by simp [h2]), if_pos (by omega)]
    · intro h1 h2 h3
      rw [if_neg (not_not.mpr h1), if_neg (by simp [h2]), if_neg (not_not.mpr h3)]

/-- Witness for C8: the success path at a concrete input — the owner cancels
a future booking and the row is marked cancelled. -/
theorem cancel_spec_witness :
    Repository.Cancel [bkFuture] 7 "c1" 0 =
      (List.map (cancelMark 7 0) [bkFuture],
       Except.ok { bkFuture with cancelledAt := some 0 }) :=
  ((cancel_spec [bkFuture] 7 "c1" 0).2 bkFuture (by decide)).2.2.2
    (by decide) (by decide) (by decide)

/-- C5, evaluation at the failing input: the only existing booking sits on a
different asset (bike 2), yet the create request for bike 1 is rejected with
BufferConflict, because `getNextBookingByOtherUserQuery` joins the bikes
table only on the label and never restricts the scanned bookings to that
bike. -/
theorem bufferConflict_crossAsset_bug :
    (API.createBookingHandler [bikeA, bikeB] [bkOnB2] "a1" "c1" 0 99 reqB1).2 =
        CreateOutcome.bufferConflict ∧
    (∀ b ∈ [bkOnB2], b.bikeId ≠ bikeA.id) := by decide

/-- C6, evaluation at the failing input: every booking within the buffer is
owned by the requesting customer "c1", yet the request is rejected with
BufferConflict: the handler passes the Auth0 id "a1" to the other-user
query while the rows store the customer id, so the own-booking exemption
never fires. -/
theorem bufferConflict_ownBooking_bug :
    (API.createBookingHandler [bikeA] [bkOwn] "a1" "c1" 0 99 reqB1).2 =
        CreateOutcome.bufferConflict ∧
    (∀ b ∈ [bkOwn], b.userId = "c1") := by decide

/-- C7, evaluation at the failing input: the next-booking query for bike
label "b1" returns a booking that belongs to bike 2, because the query has
no `bike_id` condition on the bookings it scans. -/
theorem getNextBooking_crossAsset_bug :
    Repository.GetNextBookingByOtherUser [bikeA, bikeB] [bkOnB2] "b1" "u1" 0 =
        some bkOnB2 ∧
    bkOnB2.bikeId ≠ bikeA.id ∧
    (∀ bk ∈ [bikeA, bikeB], bk.label = "b1" → bk.id = bikeA.id) := by decide

/-- C9, counterexample: at this concrete input the candidate both overlaps
an existing non-cancelled same-bike reservation and violates the one-hour
buffer against a later reservation of another user, yet the handler answers
BufferConflict, not OverlapConflict — the buffer check runs in the handler
before `Repository.Create` is ever called. -/
theorem buffer_beats_overlap_counterexample :
    (∃ ex ∈ [bk1, bkBufferC9], ex.bikeId = 1 ∧ ex.cancelledAt = none ∧
        ex.startTime < reqB1.endTime ∧ ex.endTime > reqB1.startTime) ∧
    (∃ nb ∈ [bk1, bkBufferC9], nb.bikeId = 1 ∧ nb.cancelledAt = none ∧
        nb.userId ≠ "c1" ∧ reqB1.endTime < nb.startTime ∧
        nb.startTime < reqB1.endTime + hour) ∧
    (API.createBookingHandler [bikeA] [bk1, bkBufferC9] "a1" "c1" 0 99 reqB1).2 =
        CreateOutcome.bufferConflict := by decide

/-- C9 amended: only the overlap check is determined inside the Store's
create transaction; the buffer check is evaluated in the API handler before
create is invoked, so whenever the buffer condition (as the code computes
it) fires on a request that passed duration validation and bike lookup, the
handler returns BufferConflict without ever calling create — even when an
overlap conflict also exists. -/
theorem bufferCheck_decided_before_create (bikes : List Bike) (db : Store)
    (auth0Id customerId : String) (now : Int) (newId : Nat) (req : CreateRequest)
    (bk : Bike)
    (hdur1 : ¬ req.endTime - req.startTime < hour)
    (hdur2 : ¬ req.endTime - req.startTime > 24 * hour)
    (hbike : bikes.find? (fun x => x.label == req.bikeId) = some bk)
    (hbuf : bufferViolated
        (Repository.GetNextBookingByOtherUser bikes db req.bikeId auth0Id req.endTime)
        req.endTime = true) :
    API.createBookingHandler bikes db auth0Id customerId now newId req =
      (db, CreateOutcome.bufferConflict) := by
  unfold API.createBookingHandler
  rw [if_neg hdur1, if_neg hdur2, hbike]
  dsimp only
  rw [if_pos hbuf]

/-- Witness for the amended C9 at a concrete input. -/
theorem bufferCheck_decided_before_create_witness :
    API.createBookingHandler [bikeA] [bkBufferC9] "a1" "c1" 0 99 reqB1 =
      ([bkBufferC9], CreateOutcome.bufferConflict) :=
  bufferCheck_decided_before_create [bikeA] [bkBufferC9] "a1" "c1" 0 99 reqB1 bikeA
    (by decide) (by decide) (by decide) (by decide)

theorem nextRow_eq_true_iff (uid : String) (after : Int) (b : Booking) :
    nextRow uid after b = true ↔
      b.userId ≠ uid ∧ b.cancelledAt = none ∧ after < b.startTime := by
  simp [nextRow, Bool.and_eq_true, Option.isNone_iff_eq_none, bne_iff_ne, and_assoc]

theorem minByStart_mem (l : List Booking) (b : Booking) (h : minByStart l = some b) :
    b ∈ l := by
  induction l with
  | nil => simp [minByStart] at h
  | cons a rest ih =>
    unfold minByStart at h
    rcases hm : minByStart rest with _ | m
    · rw [hm] at h
      dsimp only at h
      injection h with h2
      subst h2
      exact List.mem_cons_self a rest
    · rw [hm] at h
      dsimp only at h
      split at h
      · injection h with h2
        subst h2
        exact List.mem_cons_of_mem a (ih hm)
      · injection h with h2
        subst h2
        exact List.mem_cons_self a rest

theorem getNext_some_mem (bikes : List Bike) (db : Store) (label uid : String)
    (after : Int) (nb : Booking)
    (h : Repository.GetNextBookingByOtherUser bikes db label uid after = some nb) :
    nb ∈ db ∧ nb.userId ≠ uid ∧ nb.cancelledAt = none ∧ after < nb.startTime := by
  unfold Repository.GetNextBookingByOtherUser at h
  split_ifs at h with hb
  have hmem := minByStart_mem _ _ h
  rw [List.mem_filter] at hmem
  exact ⟨hmem.1, (nextRow_eq_true_iff uid after nb).mp hmem.2⟩

/-- C10: the handover pre-flight check only ever considers non-cancelled
bookings with `startTime` strictly greater than `now`: adding a booking that
has already started (`startTime <= now`) never changes the response, and
whenever the response reports a block, the blocking booking is a
non-cancelled row of the store with `startTime > now`. -/
theorem upcomingCheck_ignores_started (bikes : List Bike) (db : Store)
    (auth0Id label : String) (now : Int) :
    (∀ b : Booking, b.startTime ≤ now →
      API.upcomingBookingCheckHandler bikes (b :: db) auth0Id label now =
        API.upcomingBookingCheckHandler bikes db auth0Id label now) ∧
    (∀ resp, API.upcomingBookingCheckHandler bikes db auth0Id label now =
        UpcomingOutcome.ok resp →
      resp.hasUpcomingBooking = true →
      ∃ nb ∈ db, resp.nextBookingStart = some nb.startTime ∧
        nb.cancelledAt = none ∧ now < nb.startTime) := by
  constructor
  · intro b hb
    have hfilter : List.filter (nextRow auth0Id now) (b :: db) =
        List.filter (nextRow auth0Id now) db := by
      rw [List.filter_cons_of_neg]
      rw [nextRow_eq_true_iff]
      exact fun hcon => absurd hcon.2.2 (by omega)
    have hnext : Repository.GetNextBookingByOtherUser bikes (b :: db) label auth0Id now =
        Repository.GetNextBookingByOtherUser bikes db label auth0Id now := by
      unfold Repository.GetNextBookingByOtherUser
      rw [hfilter]
    unfold API.upcomingBookingCheckHandler
    rw [hnext]
  · intro resp hre hup
    unfold API.upcomingBookingCheckHandler at hre
    rcases hf : bikes.find? (fun bk => bk.label == label) with _ | bk
    · rw [hf] at hre
      exact absurd hre (by simp)
    · rw [hf] at hre
      dsimp only at hre
      rcases hnb : Repository.GetNextBookingByOtherUser bikes db label auth0Id now
          with _ | nb
      · rw [hnb] at hre
        dsimp only at hre
        injection hre with h2
        subst h2
        exact absurd hup (by simp)
      · rw [hnb] at hre
        dsimp only at hre
        split at hre
        · injection hre with h2
          subst h2
          obtain ⟨hmem, _, hcanc, hstart⟩ := getNext_some_mem bikes db label auth0Id now nb hnb
          exact ⟨nb, hmem, rfl, hcanc, hstart⟩
        · injection hre with h2
          subst h2
          exact absurd hup (by simp)

/-- Witness for C10 at a concrete input: inserting an already-started
booking does not change the pre-flight response. -/
theorem upcomingCheck_ignores_started_witness :
    API.upcomingBookingCheckHandler [bikeA] [bk1] "a1" "b1" 4000 =
      API.upcomingBookingCheckHandler [bikeA] [] "a1" "b1" 4000 :=
  (upcomingCheck_ignores_started [bikeA] [] "a1" "b1" 4000).1 bk1 (by decide)

end Bikeshare
